import Mathlib

/-!
Shallow embedding of net-tui (src/main.go), a terminal network dashboard:
the data model, the navigation state machine (`handleKey`, `clampCursor`,
`Update`), the scroll helpers (`adjustOffset`, `visibleRange`), the
normalizer (`fetchConnections`, `fetchPorts`, `fetchInterfaces`,
`fetchData`) and the text renderer (the `view*` family).

Conventions of the embedding:
* Go `int` fields become `Int` (the interesting behaviour includes
  negative cursor/offset values); `uint32`/`uint64` counters become `Nat`.
* Go strings are byte sequences; they are modelled as Lean `String`
  values whose `Char`s stand for the bytes.
* The external libraries (bubbletea, lipgloss, gopsutil) are modelled at
  their call boundary: lipgloss styles wrap their text in fixed marker
  strings and `lipgloss.Width` is the printable width, i.e. the length of
  the unstyled text; the gopsutil/`net` acquisition calls are inputs
  (`Option` for fallible calls); `time.Now().Format("15:04:05")`, read by
  `viewHeader`, is passed in as the `clock` argument.
-/

namespace NetTui

/-! ## Data types (src/main.go, "Data types" section) -/

/-- Go struct `connection`. -/
structure connection where
  proto   : String
  local_  : String
  remote  : String
  state   : String
  pid     : Int
  process : String
deriving DecidableEq

/-- Go struct `port`; the first field is the port number (Go `port.port`). -/
structure port where
  port    : Nat
  proto   : String
  addr    : String
  pid     : Int
  process : String
deriving DecidableEq

/-- Go struct `iface`. -/
structure iface where
  name  : String
  up    : Bool
  addrs : List String
  rx    : Nat
  tx    : Nat
deriving DecidableEq

/-- Go `tab` is an `int`; the three constants follow. -/
def tabConnections : Int := 0

def tabPorts : Int := 1

def tabInterfaces : Int := 2

/-- Go struct `model`: all application state. -/
structure model where
  tab    : Int
  cursor : Int
  offset : Int
  width  : Int
  height : Int
  connections : List connection
  ports       : List port
  interfaces  : List iface
deriving DecidableEq

/-- Go `newModel`: zero values except `tab = tabConnections`. -/
def newModel : model :=
  { tab := tabConnections, cursor := 0, offset := 0, width := 0, height := 0
    connections := [], ports := [], interfaces := [] }

/-- Go `model.listLen`: length of the active list (switch with default 0). -/
def model.listLen (m : model) : Int :=
  if m.tab = tabConnections then (m.connections.length : Int)
  else if m.tab = tabPorts then (m.ports.length : Int)
  else if m.tab = tabInterfaces then (m.interfaces.length : Int)
  else 0

/-- Go `model.clampCursor`: lowers the cursor to `max(listLen-1, 0)` when it
exceeds it.  (It never raises the cursor.) -/
def model.clampCursor (m : model) : model :=
  let mx := m.listLen - 1
  let mx := if mx < 0 then 0 else mx
  if m.cursor > mx then { m with cursor := mx } else m

/-! ## Navigation state machine -/

/-- One constructor per case of the `switch msg.String()` in `handleKey`;
`other` stands for any unrecognized key. -/
inductive keyMsg where
  | quit       -- "q", "ctrl+c"
  | tabNext    -- "tab", "l", "right"
  | tabPrev    -- "shift+tab", "h", "left"
  | down       -- "j", "down"
  | up         -- "k", "up"
  | jumpStart  -- "g", "home"
  | jumpEnd    -- "G", "end"
  | sel1       -- "1"
  | sel2       -- "2"
  | sel3       -- "3"
  | other
deriving DecidableEq

/-- Go `model.handleKey` (the model component of its result; the `tea.Cmd`
component carries no state).  `Int.tmod` is Go's truncated `%`. -/
def model.handleKey (m : model) (k : keyMsg) : model :=
  match k with
  | .quit      => m
  | .tabNext   => { m with tab := (m.tab + 1).tmod 3, cursor := 0, offset := 0 }
  | .tabPrev   => { m with tab := (m.tab + 2).tmod 3, cursor := 0, offset := 0 }
  | .down      => ({ m with cursor := m.cursor + 1 }).clampCursor
  | .up        => if m.cursor > 0 then { m with cursor := m.cursor - 1 } else m
  | .jumpStart => { m with cursor := 0, offset := 0 }
  | .jumpEnd   => ({ m with cursor := m.listLen - 1 }).clampCursor
  | .sel1      => { m with tab := tabConnections, cursor := 0, offset := 0 }
  | .sel2      => { m with tab := tabPorts, cursor := 0, offset := 0 }
  | .sel3      => { m with tab := tabInterfaces, cursor := 0, offset := 0 }
  | .other     => m

/-- The messages consumed by `model.Update`. -/
inductive teaMsg where
  | key (k : keyMsg)
  | windowSize (w h : Int)
  | tick
  | data (cs : List connection) (ps : List port) (ifs : List iface)

/-- Go `model.Update` (model component; commands carry no state). -/
def model.Update (m : model) (msg : teaMsg) : model :=
  match msg with
  | .key k          => m.handleKey k
  | .windowSize w h => { m with width := w, height := h }
  | .tick           => m
  | .data cs ps ifs =>
      ({ m with connections := cs, ports := ps, interfaces := ifs }).clampCursor

/-! ## Scroll helpers -/

/-- Go struct `visibleRange{start, end int}` (`end` is a Lean keyword, so the
second field is `stop`). -/
structure visRange where
  start : Int
  stop  : Int
deriving DecidableEq

/-- Go `model.adjustOffset` (pointer receiver; returned functionally). -/
def model.adjustOffset (m : model) (pageSize : Int) : model :=
  if m.cursor < m.offset then { m with offset := m.cursor }
  else if m.cursor ≥ m.offset + pageSize then
    { m with offset := m.cursor - pageSize + 1 }
  else m

/-- Go `model.visibleRange`. -/
def model.visibleRange (m : model) (total pageSize : Int) : visRange :=
  { start := m.offset, stop := min (m.offset + pageSize) total }

/-- The content height computed at the top of `viewContent`:
`height := m.height - 5` (header, tabs, footer) floored at 1. -/
def contentHeight (m : model) : Int :=
  let h := m.height - 5
  if h < 1 then 1 else h

/-- The indices `i` visited by a view's row loop
`for i := visible.start; i < visible.end; i++`. -/
def intRange (a b : Int) : List Int :=
  (List.range (b - a).toNat).map (fun i => a + (i : Int))

/-- The row indices the active view's loop touches in one render of `m`:
each `view*` receives `contentHeight m`, passes `contentHeight m - 1`
(one row is the column header) to `adjustOffset` and `visibleRange`, and
loops over the resulting range against the active list's length. -/
def model.rowIndices (m : model) : List Int :=
  let ps := contentHeight m - 1
  let m' := m.adjustOffset ps
  let vr := m'.visibleRange m'.listLen ps
  intRange vr.start vr.stop

/-! ## Formatting helpers -/

/-- Go `protoString`: transport label from gopsutil's raw socket-type code
(`c.Type`; 2 = SOCK_DGRAM) and address-family code (10/23 = IPv6). -/
def protoString (connType family : Nat) : String :=
  let proto := if connType = 2 then "udp" else "tcp"
  if family = 10 ∨ family = 23 then proto ++ "6" else proto

/-- Go `formatAddr`: `address:port`, with `*` for an empty address. -/
def formatAddr (ip : String) (port_ : Nat) : String :=
  (if ip = "" then "*" else ip) ++ ":" ++ toString port_

/-- The `for n := b / unit; n >= unit; n /= unit` loop of Go `formatBytes`,
threading `(div, exp)`. -/
def fbLoop (n div exp : Nat) : Nat × Nat :=
  if h : 1024 ≤ n then fbLoop (n / 1024) (div * 1024) (exp + 1) else (div, exp)
termination_by n
decreasing_by exact Nat.div_lt_self (by omega) (by omega)

/-- The unit letters `"KMGTPE"` indexed by `exp` in Go `formatBytes`. -/
def fbUnits : List Char := ['K', 'M', 'G', 'T', 'P', 'E']

/-- Go `formatBytes` (argument is `uint64`, modelled as `Nat`): below 1024
an integer with unit `B`; otherwise `%.1f` of `b / div` with the scaled
unit letter.  `%.1f` is modelled exactly: one decimal digit obtained by
rounding `10*b/div` half to even (for the amounts the claims mention the
division is exact, so no rounding occurs). -/
def formatBytes (b : Nat) : String :=
  if b < 1024 then toString b ++ " B"
  else
    let de := fbLoop (b / 1024) 1024 0
    let div := de.1
    let t := 10 * b
    let q0 := t / div
    let r := t % div
    let q :=
      if div < 2 * r then q0 + 1
      else if 2 * r < div then q0
      else if q0 % 2 = 1 then q0 + 1 else q0
    toString (q / 10) ++ "." ++ toString (q % 10) ++ " " ++
      String.mk [fbUnits.getD de.2 '?'] ++ "B"

/-- Go `truncate`: unchanged when it fits, hard cut for `max ≤ 3`, else cut
to `max-3` and append the three-character ellipsis marker.  Go slices by
byte; the model's `Char`s stand for the bytes. -/
def truncate (s : String) (mx : Nat) : String :=
  if s.data.length ≤ mx then s
  else if mx ≤ 3 then String.mk (s.data.take mx)
  else String.mk (s.data.take (mx - 3)) ++ "..."

/-- `fmt.Sprintf` `%-Ns` / `%-Nd` padding: pad right with spaces to width
`w`, never truncating. -/
def padRight (s : String) (w : Nat) : String :=
  s ++ String.mk (List.replicate (w - s.data.length) ' ')

/-! ## Normalizer (`fetch*`)

The gopsutil/`net` acquisition results are the inputs; a fallible call is
an `Option` (`none` = the call returned an error).  `getProcessName` with
its per-pass cache is observationally a pure lookup `pid → name` within
one pass (failed lookups yield `""`), modelled by the `lookupName`
argument. -/

/-- One raw entry of `psnet.Connections("all")`. -/
structure RawConn where
  status    : String
  type_     : Nat
  family    : Nat
  laddrIP   : String
  laddrPort : Nat
  raddrIP   : String
  raddrPort : Nat
  pid       : Int
deriving DecidableEq

/-- One raw entry of `net.Interfaces()`; `addrs = none` models an error
from `ni.Addrs()` (addresses are then skipped). -/
structure RawIface where
  name     : String
  up       : Bool
  loopback : Bool
  addrs    : Option (List String)
deriving DecidableEq

/-- One raw entry of `psnet.IOCounters(true)`. -/
structure IOStat where
  name      : String
  bytesRecv : Nat
  bytesSent : Nat
deriving DecidableEq

/-- Go `fetchConnections`: on error `nil`; otherwise keep entries with a
nonempty status and build display records. -/
def fetchConnections (lookupName : Int → String) :
    Option (List RawConn) → List connection
  | none => []
  | some conns =>
      (conns.filter (fun c => !(c.status == ""))).map fun c =>
        let name := if c.pid > 0 then lookupName c.pid else ""
        { proto := protoString c.type_ c.family
          local_ := formatAddr c.laddrIP c.laddrPort
          remote := formatAddr c.raddrIP c.raddrPort
          state := c.status
          pid := c.pid
          process := name }

/-- The dedup key of Go `fetchPorts`: `fmt.Sprintf("%d-%d", c.Laddr.Port,
c.Type)`, injective on the pair, so modelled as the pair itself. -/
def portKey (c : RawConn) : Nat × Nat :=
  (c.laddrPort, c.type_)

/-- The loop body of Go `fetchPorts`: keep `LISTEN` entries whose key has
not been seen, first occurrence first. -/
def dedupListening : List RawConn → List (Nat × Nat) → List RawConn
  | [], _ => []
  | c :: cs, seen =>
      if c.status ≠ "LISTEN" then dedupListening cs seen
      else if portKey c ∈ seen then dedupListening cs seen
      else c :: dedupListening cs (portKey c :: seen)

/-- The record built for one kept entry in Go `fetchPorts` (the bind
address is stored raw; the view substitutes the wildcard marker). -/
def mkPort (lookupName : Int → String) (c : RawConn) : port :=
  let name := if c.pid > 0 then lookupName c.pid else ""
  { port := c.laddrPort
    proto := protoString c.type_ c.family
    addr := c.laddrIP
    pid := c.pid
    process := name }

/-- The comparison `result[i].port < result[j].port` of Go `sort.Slice`,
as the non-strict order a comparison sort establishes. -/
def portLE (a b : port) : Prop :=
  a.port ≤ b.port

instance : DecidableRel portLE := fun a b => Nat.decLe a.port b.port

instance : IsTotal port portLE := ⟨fun a b => Nat.le_total a.port b.port⟩

instance : IsTrans port portLE := ⟨fun _ _ _ => Nat.le_trans⟩

/-- Go `fetchPorts`: on error `nil`; otherwise filter to `LISTEN`, dedup by
`(port, type)` keeping first occurrences, and sort ascending by port
number.  `sort.Slice` is an unspecified comparison sort (ties land in
unspecified order); it is modelled by insertion sort, which satisfies the
same contract. -/
def fetchPorts (lookupName : Int → String) :
    Option (List RawConn) → List port
  | none => []
  | some conns =>
      List.insertionSort portLE ((dedupListening conns []).map (mkPort lookupName))

/-- The `ioMap[c.Name] = c` insertion loop of Go `fetchInterfaces`: a map
lookup where the last entry with a given name wins. -/
def ioFind (counters : List IOStat) (n : String) : Option IOStat :=
  counters.foldl (fun acc c => if c.name = n then some c else acc) none

/-- Go `fetchInterfaces`: on error from `net.Interfaces()` `nil`; the
error of `psnet.IOCounters` is discarded (`counters, _ := ...`), leaving
an empty counter list; loopback interfaces are skipped; counters default
to zero when no entry matches the interface name. -/
def fetchInterfaces (ifs? : Option (List RawIface))
    (ctrs? : Option (List IOStat)) : List iface :=
  match ifs? with
  | none => []
  | some netIfaces =>
      let counters := ctrs?.getD []
      (netIfaces.filter (fun ni => !ni.loopback)).map fun ni =>
        { name := ni.name
          up := ni.up
          addrs := ni.addrs.getD []
          rx := (ioFind counters ni.name).elim 0 IOStat.bytesRecv
          tx := (ioFind counters ni.name).elim 0 IOStat.bytesSent }

/-- One acquisition pass: the fallible calls the three `fetch*` functions
make (`fetchConnections` and `fetchPorts` each call
`psnet.Connections("all")` separately, so each has its own result), plus
the process-name lookup. -/
structure acq where
  connsC : Option (List RawConn)
  connsP : Option (List RawConn)
  ifs    : Option (List RawIface)
  ctrs   : Option (List IOStat)
  lookupName : Int → String

/-- The payload of Go `dataMsg`. -/
structure dataMsgT where
  connections : List connection
  ports       : List port
  interfaces  : List iface

/-- Go `fetchData`: one pass, three independent category results. -/
def fetchData (a : acq) : dataMsgT :=
  { connections := fetchConnections a.lookupName a.connsC
    ports := fetchPorts a.lookupName a.connsP
    interfaces := fetchInterfaces a.ifs a.ctrs }

/-! ## Styles and renderer

A lipgloss style with only bold/foreground/background set renders a string
by surrounding it with ANSI sequences.  The model keeps one fixed marker
pair per style of the `styles` table; `lipgloss.Width` of such a rendered
fragment is the length of the unstyled text. -/

/-- A lipgloss style at the granularity the program uses: a fixed opening
escape sequence and a closing reset. -/
structure style where
  pre  : String
  post : String
deriving DecidableEq

/-- `lipgloss.Style.Render`. -/
def style.render (st : style) (s : String) : String :=
  st.pre ++ s ++ st.post

/-- The fields of the anonymous `styles` struct. -/
structure stylesT where
  title       : style
  dim         : style
  header      : style
  selected    : style
  tabActive   : style
  tabInactive : style
  stateUp     : style
  stateDown   : style

/-- The global immutable `styles` table; each entry gets a distinct marker
pair standing for its ANSI sequences. -/
def styles : stylesT :=
  { title := ⟨"\x1b[T;", "\x1b[0m"⟩
    dim := ⟨"\x1b[D;", "\x1b[0m"⟩
    header := ⟨"\x1b[H;", "\x1b[0m"⟩
    selected := ⟨"\x1b[S;", "\x1b[0m"⟩
    tabActive := ⟨"\x1b[A;", "\x1b[0m"⟩
    tabInactive := ⟨"\x1b[I;", "\x1b[0m"⟩
    stateUp := ⟨"\x1b[U;", "\x1b[0m"⟩
    stateDown := ⟨"\x1b[W;", "\x1b[0m"⟩ }

/-- Go `tab.String()` for the three tab values. -/
def tabString (t : Int) : String :=
  if t = 0 then "Connections" else if t = 1 then "Ports" else "Interfaces"

/-- Go `model.viewHeader`.  `clock` is `time.Now().Format("15:04:05")`,
the one ambient input of the renderer; `lipgloss.Width(title)` and
`lipgloss.Width(clock)` are the printable widths, i.e. the lengths of the
unstyled texts. -/
def model.viewHeader (m : model) (clock : String) : String :=
  let titleText := " net-tui "
  let title := styles.title.render titleText
  let clockR := styles.dim.render clock
  let gap := max (m.width - (titleText.data.length : Int) - (clock.data.length : Int)) 0
  title ++ String.mk (List.replicate gap.toNat ' ') ++ clockR ++ "\n"

/-- Go `model.viewTabs`: the three tab labels, the active one styled
differently, joined by single spaces. -/
def model.viewTabs (m : model) : String :=
  let one := fun (i : Int) =>
    (if i = m.tab then styles.tabActive else styles.tabInactive).render
      (" " ++ tabString i ++ " ")
  String.intercalate " " [one 0, one 1, one 2] ++ "\n"

/-- List indexing as Go performs it inside the row loops; the claims about
index validity (C10) are stated separately, so out-of-range access (a Go
panic) falls back to a default here. -/
def atIdx (l : List connection) (i : Int) : connection :=
  if i < 0 then ⟨"", "", "", "", 0, ""⟩
  else l.getD i.toNat ⟨"", "", "", "", 0, ""⟩

/-- `atIdx` for ports. -/
def atIdxP (l : List port) (i : Int) : port :=
  if i < 0 then ⟨0, "", "", 0, ""⟩ else l.getD i.toNat ⟨0, "", "", 0, ""⟩

/-- `atIdx` for interfaces. -/
def atIdxI (l : List iface) (i : Int) : iface :=
  if i < 0 then ⟨"", false, [], 0, 0⟩ else l.getD i.toNat ⟨"", false, [], 0, 0⟩

/-- The row loop shared by the three views: emit each line, the cursor row
through `styles.selected`. -/
def rowsOut (m : model) (idx : List Int) (line : Int → String) : String :=
  idx.foldl
    (fun acc i =>
      acc ++ (if i = m.cursor then styles.selected.render (line i) else line i) ++ "\n")
    ""

/-- Go `model.viewConnections` (receives the content height, adjusts the
offset by `height-1`, then renders header, visible rows, count footer). -/
def model.viewConnections (m : model) (height : Int) : String :=
  let header := padRight "PROTO" 7 ++ " " ++ padRight "LOCAL" 21 ++ " " ++
    padRight "REMOTE" 21 ++ " " ++ padRight "STATE" 11 ++ " " ++ "PROCESS"
  let m := m.adjustOffset (height - 1)
  let visible := m.visibleRange (m.connections.length : Int) (height - 1)
  let line := fun (i : Int) =>
    let c := atIdx m.connections i
    padRight c.proto 7 ++ " " ++ padRight (truncate c.local_ 21) 21 ++ " " ++
      padRight (truncate c.remote 21) 21 ++ " " ++ padRight c.state 11 ++ " " ++
      truncate c.process 15
  styles.header.render header ++ "\n" ++
    rowsOut m (intRange visible.start visible.stop) line ++
    styles.dim.render ("\n" ++ toString m.connections.length ++ " connections")

/-- Go `model.viewPorts`; wildcard-equivalent bind addresses are replaced
by `*` here, in the view. -/
def model.viewPorts (m : model) (height : Int) : String :=
  let header := padRight "PORT" 7 ++ " " ++ padRight "PROTO" 7 ++ " " ++
    padRight "ADDRESS" 16 ++ " " ++ padRight "PID" 8 ++ " " ++ "PROCESS"
  let m := m.adjustOffset (height - 1)
  let visible := m.visibleRange (m.ports.length : Int) (height - 1)
  let line := fun (i : Int) =>
    let p := atIdxP m.ports i
    let addr := if p.addr = "" ∨ p.addr = "0.0.0.0" ∨ p.addr = "::" then "*" else p.addr
    padRight (toString p.port) 7 ++ " " ++ padRight p.proto 7 ++ " " ++
      padRight addr 16 ++ " " ++ padRight (toString p.pid) 8 ++ " " ++
      truncate p.process 20
  styles.header.render header ++ "\n" ++
    rowsOut m (intRange visible.start visible.stop) line ++
    styles.dim.render ("\n" ++ toString m.ports.length ++ " listening ports")

/-- Go `model.viewInterfaces`. -/
def model.viewInterfaces (m : model) (height : Int) : String :=
  let header := padRight "NAME" 12 ++ " " ++ padRight "STATE" 6 ++ " " ++
    padRight "ADDRESS" 22 ++ " " ++ padRight "RX" 12 ++ " " ++ "TX"
  let m := m.adjustOffset (height - 1)
  let visible := m.visibleRange (m.interfaces.length : Int) (height - 1)
  let line := fun (i : Int) =>
    let ifc := atIdxI m.interfaces i
    let st := if ifc.up then styles.stateUp.render "up" else styles.stateDown.render "down"
    let addr := if ifc.addrs.length > 0 then ifc.addrs.headD "-" else "-"
    padRight ifc.name 12 ++ " " ++ padRight st 6 ++ " " ++
      padRight (truncate addr 22) 22 ++ " " ++ padRight (formatBytes ifc.rx) 12 ++ " " ++
      formatBytes ifc.tx
  styles.header.render header ++ "\n" ++
    rowsOut m (intRange visible.start visible.stop) line ++
    styles.dim.render ("\n" ++ toString m.interfaces.length ++ " interfaces")

/-- Go `model.viewContent`: content height floored at 1, then dispatch on
the active tab (switch with default `""`). -/
def model.viewContent (m : model) : String :=
  let height := contentHeight m
  if m.tab = tabConnections then m.viewConnections height
  else if m.tab = tabPorts then m.viewPorts height
  else if m.tab = tabInterfaces then m.viewInterfaces height
  else ""

/-- Go `model.viewFooter`. -/
def model.viewFooter : String :=
  "\n" ++ styles.dim.render "q quit • tab/1-3 switch • j/k navigate"

/-- Go `model.View`: the whole frame; placeholder before the first resize.
`View` has a value receiver — the adjusted offset inside the views lives
on a copy and the stored model is unchanged — so the frame is the only
output. -/
def model.View (m : model) (clock : String) : String :=
  if m.width = 0 then "loading..."
  else
    m.viewHeader clock ++ m.viewTabs ++ "\n" ++ m.viewContent ++ model.viewFooter

end NetTui

/-! ## C1: the cursor invariant `0 ≤ cursor` -/

/-- **C1** (code behaviour at the failing input): from the initial model
(all lists empty), the jump-end key ("G"/"end") sets
`cursor = listLen() - 1 = -1`, and `clampCursor` — which only ever lowers
the cursor — leaves it at `-1`, violating the claimed invariant
`0 ≤ cursor` after every transition. -/
theorem C1_jump_end_empty_cursor_negative :
    (NetTui.newModel.Update (NetTui.teaMsg.key NetTui.keyMsg.jumpEnd)).cursor = -1 ∧
      ¬ (0 ≤ (NetTui.newModel.Update (NetTui.teaMsg.key NetTui.keyMsg.jumpEnd)).cursor) := by
  constructor
  · rfl
  · decide

/-! ## C10: validity of the indices touched by the row loops -/

/-- **C10** (code behaviour at the failing input): after a resize to 80×24
and a jump-end on the empty initial model, the cursor is `-1`, the render's
`adjustOffset` drags the offset to `-1`, and the connections row loop
touches index `-1` of the empty list (an out-of-range access: Go panics),
refuting the claim that every touched index `i` satisfies
`0 ≤ i < len(activeList)`. -/
theorem C10_row_loop_touches_negative_index :
    ((NetTui.newModel.Update (NetTui.teaMsg.windowSize 80 24)).Update
        (NetTui.teaMsg.key NetTui.keyMsg.jumpEnd)).rowIndices = [-1] ∧
      ((NetTui.newModel.Update (NetTui.teaMsg.windowSize 80 24)).Update
        (NetTui.teaMsg.key NetTui.keyMsg.jumpEnd)).listLen = 0 := by
  constructor
  · rfl
  · rfl

/-! ## C2: the scroll-follow invariant -/

/-- **C2** fails as stated: with viewport height 5 the content height
`m.height - 5 = 0` is floored at 1, but the page size actually handed to
`adjustOffset` is `contentHeight - 1 = 0`, and the adjustment pushes the
offset to `cursor + 1 = 1`, strictly above the cursor `0` — the degenerate
window does push the offset above the cursor. -/
theorem C2_counterexample :
    NetTui.contentHeight { NetTui.newModel with width := 80, height := 5 } = 1 ∧
      NetTui.contentHeight { NetTui.newModel with width := 80, height := 5 } - 1 = 0 ∧
      (({ NetTui.newModel with width := 80, height := 5 } : NetTui.model).adjustOffset
          (NetTui.contentHeight { NetTui.newModel with width := 80, height := 5 } - 1)).offset = 1 ∧
      ({ NetTui.newModel with width := 80, height := 5 } : NetTui.model).cursor = 0 := by
  refine ⟨rfl, rfl, rfl, rfl⟩

/-- **C2** (amended): after `adjustOffset`, `offset ≤ cursor < offset + pageSize`
holds whenever `pageSize ≥ 1`, and the content height `m.height - 5` is
floored at 1; but the views hand `contentHeight - 1` (the column-header row)
to the adjustment, so for `m.height ≤ 6` the page size used is 0 and the
adjustment can push the offset above the cursor. -/
theorem C2_adjust_offset_invariant (m : NetTui.model) (p : Int) (hp : 1 ≤ p) :
    ((m.adjustOffset p).offset ≤ m.cursor ∧
      m.cursor < (m.adjustOffset p).offset + p) ∧
      1 ≤ NetTui.contentHeight m := by
  constructor
  · unfold NetTui.model.adjustOffset
    by_cases h1 : m.cursor < m.offset
    · rw [if_pos h1]
      show m.cursor ≤ m.cursor ∧ m.cursor < m.cursor + p
      omega
    · rw [if_neg h1]
      by_cases h2 : m.cursor ≥ m.offset + p
      · rw [if_pos h2]
        show m.cursor - p + 1 ≤ m.cursor ∧ m.cursor < m.cursor - p + 1 + p
        omega
      · rw [if_neg h2]
        show m.offset ≤ m.cursor ∧ m.cursor < m.offset + p
        omega
  · show (1 : Int) ≤ if m.height - 5 < 1 then 1 else m.height - 5
    split <;> omega

/-- Witness for `C2_adjust_offset_invariant` at a concrete state. -/
theorem C2_witness :
    (1 : Int) ≤ 10 ∧
      ((({ NetTui.newModel with cursor := 25, height := 24 } : NetTui.model).adjustOffset 10).offset ≤ 25 ∧
        (25 : Int) < (({ NetTui.newModel with cursor := 25, height := 24 } : NetTui.model).adjustOffset 10).offset + 10) ∧
      1 ≤ NetTui.contentHeight { NetTui.newModel with cursor := 25, height := 24 } :=
  ⟨by decide,
    (C2_adjust_offset_invariant { NetTui.newModel with cursor := 25, height := 24 } 10 (by decide)).1,
    (C2_adjust_offset_invariant { NetTui.newModel with cursor := 25, height := 24 } 10 (by decide)).2⟩

/-! ## C8: tab cycling -/

/-- **C8**: from any reachable tab (`0 ≤ tab < 3`), three tab-forward
presses return to the original tab, three tab-backward presses likewise,
and every tab-forward, tab-backward, or direct tab selection resets cursor
and offset to 0. -/
theorem C8_tab_cycle (m : NetTui.model) (h0 : 0 ≤ m.tab) (h3 : m.tab < 3) :
    (((m.handleKey .tabNext).handleKey .tabNext).handleKey .tabNext).tab = m.tab ∧
      (((m.handleKey .tabPrev).handleKey .tabPrev).handleKey .tabPrev).tab = m.tab ∧
      ((m.handleKey .tabNext).cursor = 0 ∧ (m.handleKey .tabNext).offset = 0) ∧
      ((m.handleKey .tabPrev).cursor = 0 ∧ (m.handleKey .tabPrev).offset = 0) ∧
      ((m.handleKey .sel1).cursor = 0 ∧ (m.handleKey .sel1).offset = 0) ∧
      ((m.handleKey .sel2).cursor = 0 ∧ (m.handleKey .sel2).offset = 0) ∧
      ((m.handleKey .sel3).cursor = 0 ∧ (m.handleKey .sel3).offset = 0) := by
  have h012 : m.tab = 0 ∨ m.tab = 1 ∨ m.tab = 2 := by omega
  refine ⟨?_, ?_, ⟨rfl, rfl⟩, ⟨rfl, rfl⟩, ⟨rfl, rfl⟩, ⟨rfl, rfl⟩, ⟨rfl, rfl⟩⟩
  · simp only [NetTui.model.handleKey]
    rcases h012 with h | h | h <;> rw [h] <;> decide
  · simp only [NetTui.model.handleKey]
    rcases h012 with h | h | h <;> rw [h] <;> decide

/-- Witness for `C8_tab_cycle` at a concrete state (tab = Ports). -/
theorem C8_witness :
    ((((({ NetTui.newModel with tab := 1 } : NetTui.model).handleKey .tabNext).handleKey
        .tabNext).handleKey .tabNext).tab = 1) ∧
      (0 : Int) ≤ 1 ∧ (1 : Int) < 3 :=
  ⟨(C8_tab_cycle { NetTui.newModel with tab := 1 } (by decide) (by decide)).1,
    by decide, by decide⟩

/-! ## C7: truncation -/

/-- **C7**: `truncate` returns the input unchanged when it fits; for
`limit ≤ 3` (input longer) the first `limit` characters; otherwise the
first `limit-3` characters plus the 3-character ellipsis marker; and in
every truncating case the output length equals the limit. -/
theorem C7_truncate (s : String) (mx : Nat) :
    (s.length ≤ mx → NetTui.truncate s mx = s) ∧
      (mx < s.length → mx ≤ 3 → NetTui.truncate s mx = String.mk (s.data.take mx)) ∧
      (mx < s.length → 3 < mx →
        NetTui.truncate s mx = String.mk (s.data.take (mx - 3)) ++ "...") ∧
      (mx < s.length → (NetTui.truncate s mx).length = mx) := by
  have hl : s.length = s.data.length := rfl
  refine ⟨?_, ?_, ?_, ?_⟩
  · intro h
    unfold NetTui.truncate
    rw [if_pos (by omega)]
  · intro h h3
    unfold NetTui.truncate
    rw [if_neg (by omega), if_pos h3]
  · intro h h3
    unfold NetTui.truncate
    rw [if_neg (by omega), if_neg (by omega)]
  · intro h
    unfold NetTui.truncate
    rw [if_neg (by omega)]
    by_cases h3 : mx ≤ 3
    · rw [if_pos h3, String.length_mk, List.length_take]
      omega
    · rw [if_neg h3, String.length_append, String.length_mk, List.length_take]
      have : ("..." : String).length = 3 := rfl
      omega

/-- Witness for `C7_truncate`: a fitting string, a hard cut at limit 2,
an ellipsis cut at limit 8, and the exact output length. -/
theorem C7_witness :
    NetTui.truncate "ab" 5 = "ab" ∧
      NetTui.truncate "abcdefghij" 2 = String.mk ("abcdefghij".data.take 2) ∧
      NetTui.truncate "abcdefghij" 8 = String.mk ("abcdefghij".data.take 5) ++ "..." ∧
      (NetTui.truncate "abcdefghij" 8).length = 8 :=
  ⟨(C7_truncate "ab" 5).1 (by decide),
    (C7_truncate "abcdefghij" 2).2.1 (by decide) (by decide),
    (C7_truncate "abcdefghij" 8).2.2.1 (by decide) (by decide),
    (C7_truncate "abcdefghij" 8).2.2.2 (by decide)⟩

/-! ## C3: port dedup -/

/-- No element kept by `dedupListening` has a key in the seen set it was
started with. -/
theorem NetTui.dedupListening_keys_notMem (cs : List NetTui.RawConn) :
    ∀ seen, ∀ c ∈ NetTui.dedupListening cs seen, NetTui.portKey c ∉ seen := by
  induction cs with
  | nil =>
      intro seen c hc
      simp [NetTui.dedupListening] at hc
  | cons a cs ih =>
      intro seen c hc
      unfold NetTui.dedupListening at hc
      by_cases hs : a.status ≠ "LISTEN"
      · rw [if_pos hs] at hc
        exact ih seen c hc
      · rw [if_neg hs] at hc
        by_cases hk : NetTui.portKey a ∈ seen
        · rw [if_pos hk] at hc
          exact ih seen c hc
        · rw [if_neg hk] at hc
          rcases List.mem_cons.mp hc with rfl | hc'
          · exact hk
          · intro hmem
            exact ih (NetTui.portKey a :: seen) c hc' (List.mem_cons_of_mem _ hmem)

/-- The keys of the entries kept by `dedupListening` are pairwise
distinct. -/
theorem NetTui.dedupListening_pairwise_keys (cs : List NetTui.RawConn) :
    ∀ seen, (NetTui.dedupListening cs seen).Pairwise
      (fun a b => NetTui.portKey a ≠ NetTui.portKey b) := by
  induction cs with
  | nil =>
      intro seen
      simp [NetTui.dedupListening]
  | cons a cs ih =>
      intro seen
      unfold NetTui.dedupListening
      by_cases hs : a.status ≠ "LISTEN"
      · rw [if_pos hs]
        exact ih seen
      · rw [if_neg hs]
        by_cases hk : NetTui.portKey a ∈ seen
        · rw [if_pos hk]
          exact ih seen
        · rw [if_neg hk]
          refine List.Pairwise.cons ?_ (ih (NetTui.portKey a :: seen))
          intro b hb he
          exact NetTui.dedupListening_keys_notMem cs (NetTui.portKey a :: seen) b hb
            (he ▸ List.mem_cons_self _ _)

/-- Every entry kept by `dedupListening` is the first listening entry of
the input with its key. -/
theorem NetTui.dedupListening_first (cs : List NetTui.RawConn) :
    ∀ seen, ∀ x ∈ NetTui.dedupListening cs seen,
      (cs.filter fun c =>
        decide (c.status = "LISTEN" ∧ NetTui.portKey c = NetTui.portKey x)).head? = some x := by
  induction cs with
  | nil =>
      intro seen x hx
      simp [NetTui.dedupListening] at hx
  | cons a cs ih =>
      intro seen x hx
      unfold NetTui.dedupListening at hx
      by_cases hs : a.status ≠ "LISTEN"
      · rw [if_pos hs] at hx
        rw [List.filter_cons]
        have hpred : ¬ (a.status = "LISTEN" ∧ NetTui.portKey a = NetTui.portKey x) :=
          fun hp => hs hp.1
        simp only [decide_eq_true_eq, hpred, if_false, decide_eq_false hpred]
        exact ih seen x hx
      · push_neg at hs
        rw [if_neg (by simp [hs])] at hx
        by_cases hk : NetTui.portKey a ∈ seen
        · rw [if_pos hk] at hx
          have hxk : NetTui.portKey x ∉ seen :=
            NetTui.dedupListening_keys_notMem cs seen x hx
          have hpred : ¬ (a.status = "LISTEN" ∧ NetTui.portKey a = NetTui.portKey x) :=
            fun hp => hxk (hp.2 ▸ hk)
          rw [List.filter_cons]
          simp only [decide_eq_false hpred, if_false]
          exact ih seen x hx
        · rw [if_neg hk] at hx
          rcases List.mem_cons.mp hx with rfl | hx'
          · rw [List.filter_cons, if_pos (by simp [hs])]
            rfl
          · have hxk : NetTui.portKey x ∉ NetTui.portKey a :: seen :=
              NetTui.dedupListening_keys_notMem cs (NetTui.portKey a :: seen) x hx'
            have hpred : ¬ (a.status = "LISTEN" ∧ NetTui.portKey a = NetTui.portKey x) :=
              fun hp => hxk (hp.2 ▸ List.mem_cons_self _ _)
            rw [List.filter_cons]
            simp only [decide_eq_false hpred, if_false]
            exact ih (NetTui.portKey a :: seen) x hx'

/-- Every listening entry of the input has a kept representative with its
key: `dedupListening` drops an entry only in favour of an earlier entry
with the same key (or one whose key is in the initial seen set). -/
theorem NetTui.dedupListening_complete (cs : List NetTui.RawConn) :
    ∀ seen, ∀ c ∈ cs, c.status = "LISTEN" → NetTui.portKey c ∉ seen →
      ∃ x ∈ NetTui.dedupListening cs seen,
        NetTui.portKey x = NetTui.portKey c := by
  induction cs with
  | nil =>
      intro seen c hc
      exact absurd hc (List.not_mem_nil c)
  | cons a cs ih =>
      intro seen c hc hs hk
      unfold NetTui.dedupListening
      by_cases ha : a.status ≠ "LISTEN"
      · rw [if_pos ha]
        rcases List.mem_cons.mp hc with rfl | hc'
        · exact absurd hs ha
        · exact ih seen c hc' hs hk
      · push_neg at ha
        rw [if_neg (by simp [ha])]
        by_cases hka : NetTui.portKey a ∈ seen
        · rw [if_pos hka]
          rcases List.mem_cons.mp hc with rfl | hc'
          · exact absurd hka hk
          · exact ih seen c hc' hs hk
        · rw [if_neg hka]
          by_cases hkc : NetTui.portKey c = NetTui.portKey a
          · exact ⟨a, List.mem_cons_self _ _, hkc.symm⟩
          · rcases List.mem_cons.mp hc with rfl | hc'
            · exact absurd rfl hkc
            · obtain ⟨x, hx, hxk⟩ := ih (NetTui.portKey a :: seen) c hc' hs
                (by
                  intro hmem
                  rcases List.mem_cons.mp hmem with h | h
                  · exact hkc h
                  · exact hk h)
              exact ⟨x, List.mem_cons_of_mem _ hx, hxk⟩

/-- **C3** fails as stated: two listening entries on port 80 with raw type
code 1 but families 2 (tcp) and 10 (tcp6) have *different* transport
labels, yet the dedup key is `(port, raw type code)`, so they collapse to
a single record — the claim requires one record per (port,
transport-label) pair, i.e. two. -/
theorem C3_counterexample :
    NetTui.protoString 1 2 = "tcp" ∧
      NetTui.protoString 1 10 = "tcp6" ∧
      (NetTui.fetchPorts (fun _ => "")
          (some [⟨"LISTEN", 1, 2, "1.2.3.4", 80, "", 0, 7⟩,
                 ⟨"LISTEN", 1, 10, "::1", 80, "", 0, 8⟩])).map NetTui.port.proto =
        ["tcp"] :=
  ⟨rfl, rfl, rfl⟩

/-- **C3** (amended): `fetchPorts` keeps, among listening raw connections,
exactly the first occurrence of each distinct `(port, raw type code)` key —
in both directions: every kept entry is the first listening occurrence of
its key and no two kept entries share a key (soundness), and every
distinct key among the listening entries has a kept representative
(completeness) — so entries differing only in bind address (or only in
address family, such as tcp vs tcp6) collapse to the first one seen, while
different type codes (tcp vs udp) each yield their own record; `fetchPorts`
is a permutation (the port-sorted one) of the records built from exactly
those survivors. -/
theorem C3_dedup_by_port_and_type (cs : List NetTui.RawConn) :
    ((NetTui.dedupListening cs []).Pairwise
        (fun a b => NetTui.portKey a ≠ NetTui.portKey b)) ∧
      (∀ x ∈ NetTui.dedupListening cs [],
        (cs.filter fun c =>
          decide (c.status = "LISTEN" ∧ NetTui.portKey c = NetTui.portKey x)).head? =
            some x) ∧
      (∀ c ∈ cs, c.status = "LISTEN" →
        ∃ x ∈ NetTui.dedupListening cs [],
          NetTui.portKey x = NetTui.portKey c) ∧
      (∀ lk, (NetTui.fetchPorts lk (some cs)).Perm
        ((NetTui.dedupListening cs []).map (NetTui.mkPort lk))) :=
  ⟨NetTui.dedupListening_pairwise_keys cs [],
    NetTui.dedupListening_first cs [],
    fun c hc hs => NetTui.dedupListening_complete cs [] c hc hs (List.not_mem_nil _),
    fun lk => List.perm_insertionSort NetTui.portLE _⟩

/-- Witness for `C3_dedup_by_port_and_type`: two listening sockets on port
80, same type code, different bind addresses — the first one is kept, and
the dropped second one still has a kept representative with its key. -/
theorem C3_witness :
    ([⟨"LISTEN", 1, 2, "0.0.0.0", 80, "", 0, 7⟩,
        ⟨"LISTEN", 1, 2, "10.0.0.1", 80, "", 0, 9⟩].filter fun c =>
          decide (c.status = "LISTEN" ∧
            NetTui.portKey c =
              NetTui.portKey ⟨"LISTEN", 1, 2, "0.0.0.0", 80, "", 0, 7⟩)).head? =
        some ⟨"LISTEN", 1, 2, "0.0.0.0", 80, "", 0, 7⟩ ∧
      ∃ x ∈ NetTui.dedupListening
          [⟨"LISTEN", 1, 2, "0.0.0.0", 80, "", 0, 7⟩,
           ⟨"LISTEN", 1, 2, "10.0.0.1", 80, "", 0, 9⟩] [],
        NetTui.portKey x =
          NetTui.portKey ⟨"LISTEN", 1, 2, "10.0.0.1", 80, "", 0, 9⟩ :=
  ⟨(C3_dedup_by_port_and_type
        [⟨"LISTEN", 1, 2, "0.0.0.0", 80, "", 0, 7⟩,
         ⟨"LISTEN", 1, 2, "10.0.0.1", 80, "", 0, 9⟩]).2.1 _ (by decide),
    (C3_dedup_by_port_and_type
        [⟨"LISTEN", 1, 2, "0.0.0.0", 80, "", 0, 7⟩,
         ⟨"LISTEN", 1, 2, "10.0.0.1", 80, "", 0, 9⟩]).2.2.1 _ (by decide) rfl⟩

/-! ## C6: port ordering -/

/-- **C6** fails as stated: tcp (type 1) and udp (type 2) both listening on
port 80 produce two records with the *same* port number, so the list is
not strictly ascending. -/
theorem C6_counterexample :
    (NetTui.fetchPorts (fun _ => "")
        (some [⟨"LISTEN", 1, 2, "", 80, "", 0, 0⟩,
               ⟨"LISTEN", 2, 2, "", 80, "", 0, 0⟩])).map NetTui.port.port =
      [80, 80] ∧
      ¬ (NetTui.fetchPorts (fun _ => "")
          (some [⟨"LISTEN", 1, 2, "", 80, "", 0, 0⟩,
                 ⟨"LISTEN", 2, 2, "", 80, "", 0, 0⟩])).Pairwise
        (fun a b => a.port < b.port) := by
  constructor
  · rfl
  · decide

/-- **C6** (amended): the derived port list is sorted nondecreasingly by
port number; records may tie on the port number when their raw type codes
differ. -/
theorem C6_ports_sorted (lk : Int → String) (cs? : Option (List NetTui.RawConn)) :
    (NetTui.fetchPorts lk cs?).Pairwise (fun a b => a.port ≤ b.port) := by
  cases cs? with
  | none => simp [NetTui.fetchPorts]
  | some cs =>
      exact List.sorted_insertionSort NetTui.portLE
        ((NetTui.dedupListening cs []).map (NetTui.mkPort lk))

/-! ## C5: partial-failure isolation -/

/-- **C5**: each category of `fetchData` is a function of its own
acquisition call alone; when that call fails (`none`) the category's list
is empty, and the other two categories are computed from their own calls
unchanged. -/
theorem C5_partial_failure_isolation (a : NetTui.acq) :
    (a.connsC = none → (NetTui.fetchData a).connections = []) ∧
      (a.connsP = none → (NetTui.fetchData a).ports = []) ∧
      (a.ifs = none → (NetTui.fetchData a).interfaces = []) ∧
      (NetTui.fetchData a).connections = NetTui.fetchConnections a.lookupName a.connsC ∧
      (NetTui.fetchData a).ports = NetTui.fetchPorts a.lookupName a.connsP ∧
      (NetTui.fetchData a).interfaces = NetTui.fetchInterfaces a.ifs a.ctrs := by
  refine ⟨?_, ?_, ?_, rfl, rfl, rfl⟩
  · intro h
    show NetTui.fetchConnections a.lookupName a.connsC = []
    rw [h]
    rfl
  · intro h
    show NetTui.fetchPorts a.lookupName a.connsP = []
    rw [h]
    rfl
  · intro h
    show NetTui.fetchInterfaces a.ifs a.ctrs = []
    rw [h]
    rfl

/-- A pass whose connection enumeration failed while interface enumeration
succeeded (one non-loopback interface with counters, one loopback). -/
def acqC5 : NetTui.acq :=
  { connsC := none
    connsP := none
    ifs := some [⟨"eth0", true, false, some ["192.168.1.5/24"]⟩,
                 ⟨"lo", true, true, some ["127.0.0.1/8"]⟩]
    ctrs := some [⟨"eth0", 1024, 2048⟩]
    lookupName := fun _ => "" }

/-- Witness for `C5_partial_failure_isolation`: connections empty,
interfaces populated from their own successful call. -/
theorem C5_witness :
    (NetTui.fetchData acqC5).connections = [] ∧
      (NetTui.fetchData acqC5).interfaces =
        [⟨"eth0", true, ["192.168.1.5/24"], 1024, 2048⟩] :=
  ⟨(C5_partial_failure_isolation acqC5).1 rfl, rfl⟩

/-! ## C9: byte formatting -/

/-- Bound on the scaling exponent computed by `fbLoop`. -/
theorem NetTui.fbLoop_exp_le (k : Nat) :
    ∀ n div e, n < 1024 ^ (k + 1) → (NetTui.fbLoop n div e).2 ≤ e + k := by
  induction k with
  | zero =>
      intro n div e h
      rw [NetTui.fbLoop, dif_neg (by simpa using h)]
      show e ≤ e + 0
      omega
  | succ k ih =>
      intro n div e h
      rw [NetTui.fbLoop]
      by_cases hn : 1024 ≤ n
      · rw [dif_pos hn]
        have hlt : n / 1024 < 1024 ^ (k + 1) := by
          rw [Nat.div_lt_iff_lt_mul (by norm_num)]
          calc n < 1024 ^ (k + 1 + 1) := h
            _ = 1024 ^ (k + 1) * 1024 := by rw [pow_succ]
        have := ih (n / 1024) (div * 1024) (e + 1) hlt
        omega
      · rw [dif_neg hn]
        show e ≤ e + (k + 1)
        omega

/-- **C9**: `formatBytes` maps 1023 to `"1023 B"`, 1024 to `"1.0 KB"`,
1048576 to `"1.0 MB"`; every value below 1024 renders as the integer with
unit `B`; and every `uint64` value ≥ 1024 renders as a whole part, one
decimal digit, and a binary-prefixed unit letter followed by `B`. -/
theorem C9_format_bytes :
    NetTui.formatBytes 1023 = "1023 B" ∧
      NetTui.formatBytes 1024 = "1.0 KB" ∧
      NetTui.formatBytes 1048576 = "1.0 MB" ∧
      (∀ b : Nat, b < 1024 → NetTui.formatBytes b = toString b ++ " B") ∧
      (∀ b : Nat, 1024 ≤ b → b < 2 ^ 64 →
        ∃ (w d : Nat) (c : Char), d < 10 ∧ c ∈ NetTui.fbUnits ∧
          NetTui.formatBytes b =
            toString w ++ "." ++ toString d ++ " " ++ String.mk [c] ++ "B") := by
  have e1 : NetTui.fbLoop 1 1024 0 = (1024, 0) := by
    rw [NetTui.fbLoop, dif_neg (by omega)]
  have e2 : NetTui.fbLoop 1024 1024 0 = (1048576, 1) := by
    rw [NetTui.fbLoop, dif_pos (by omega)]
    norm_num
    rw [NetTui.fbLoop, dif_neg (by omega)]
  refine ⟨?_, ?_, ?_, ?_, ?_⟩
  · rfl
  · simp only [NetTui.formatBytes]
    rw [if_neg (by omega)]
    norm_num
    rw [e1]
    decide
  · simp only [NetTui.formatBytes]
    rw [if_neg (by omega)]
    norm_num
    rw [e2]
    decide
  · intro b hb
    simp only [NetTui.formatBytes]
    rw [if_pos hb]
  · intro b hb hb64
    have h6 : b / 1024 < 1024 ^ 6 := by
      rw [Nat.div_lt_iff_lt_mul (by norm_num)]
      calc b < 2 ^ 64 := hb64
        _ ≤ 1024 ^ 6 * 1024 := by norm_num
    have hexp : (NetTui.fbLoop (b / 1024) 1024 0).2 ≤ 5 := by
      have := NetTui.fbLoop_exp_le 5 (b / 1024) 1024 0 h6
      omega
    simp only [NetTui.formatBytes]
    rw [if_neg (by omega)]
    refine ⟨_, _, NetTui.fbUnits.getD (NetTui.fbLoop (b / 1024) 1024 0).2 '?',
      Nat.mod_lt _ (by norm_num), ?_, rfl⟩
    have h5 : (NetTui.fbLoop (b / 1024) 1024 0).2 = 0 ∨
        (NetTui.fbLoop (b / 1024) 1024 0).2 = 1 ∨
        (NetTui.fbLoop (b / 1024) 1024 0).2 = 2 ∨
        (NetTui.fbLoop (b / 1024) 1024 0).2 = 3 ∨
        (NetTui.fbLoop (b / 1024) 1024 0).2 = 4 ∨
        (NetTui.fbLoop (b / 1024) 1024 0).2 = 5 := by omega
    rcases h5 with h | h | h | h | h | h <;> rw [h] <;> decide

/-- Witness for `C9_format_bytes` instantiating its universal parts:
500 bytes and 2048 bytes. -/
theorem C9_witness :
    NetTui.formatBytes 500 = toString (500 : Nat) ++ " B" ∧
      (∃ (w d : Nat) (c : Char), d < 10 ∧ c ∈ NetTui.fbUnits ∧
        NetTui.formatBytes 2048 =
          toString w ++ "." ++ toString d ++ " " ++ String.mk [c] ++ "B") :=
  ⟨C9_format_bytes.2.2.2.1 500 (by norm_num),
    C9_format_bytes.2.2.2.2 2048 (by norm_num) (by norm_num)⟩

/-! ## C4: renderer purity -/

/-- A concrete post-resize state used to exercise the renderer. -/
def modelC4 : NetTui.model :=
  { NetTui.newModel with width := 80, height := 24 }

/-- **C4** fails as stated: the header embeds `time.Now()` formatted as a
clock, so two renders from the *same* state and record lists — one second
apart — produce different frames. -/
theorem C4_counterexample :
    modelC4.View "12:00:00" ≠ modelC4.View "12:00:01" := by
  decide

/-- **C4** (amended): rendering is a pure function of the state, the three
record lists, and the current wall-clock reading, and the clock is
confined to the header: for equal-length clock strings the two headers
have equal length, each frame begins with exactly its header (its prefix
of header length *is* the header), and after dropping the header the two
frames are *equal* — everything outside the header is clock-independent.
Before the first resize the placeholder frame is clock-independent
outright.  (`View`, having a value receiver, returns only the frame — the
state and lists are left unchanged.) -/
theorem C4_clock_only_in_header (m : NetTui.model) (c₁ c₂ : String)
    (hc : c₁.length = c₂.length) :
    (m.viewHeader c₁).length = (m.viewHeader c₂).length ∧
      (m.width = 0 → m.View c₁ = m.View c₂) ∧
      (m.width ≠ 0 →
        (m.View c₁).data.take (m.viewHeader c₁).data.length = (m.viewHeader c₁).data ∧
        (m.View c₂).data.take (m.viewHeader c₂).data.length = (m.viewHeader c₂).data ∧
        (m.View c₁).data.drop (m.viewHeader c₁).data.length =
          (m.View c₂).data.drop (m.viewHeader c₂).data.length) := by
  have hd : c₁.data.length = c₂.data.length := hc
  refine ⟨?_, ?_, ?_⟩
  · simp only [NetTui.model.viewHeader, NetTui.style.render, String.length_append,
      String.length_mk, List.length_replicate, hc, hd]
  · intro hw
    simp [NetTui.model.View, hw]
  · intro hw
    have hdata : ∀ c : String, (m.View c).data =
        (m.viewHeader c).data ++
          (m.viewTabs ++ "\n" ++ m.viewContent ++ NetTui.model.viewFooter).data := by
      intro c
      simp [NetTui.model.View, hw, String.data_append, List.append_assoc]
    refine ⟨?_, ?_, ?_⟩
    · rw [hdata c₁]
      exact List.take_left _ _
    · rw [hdata c₂]
      exact List.take_left _ _
    · rw [hdata c₁, hdata c₂, List.drop_left, List.drop_left]

/-- Witness for `C4_clock_only_in_header` at a concrete state (width 80,
so past the placeholder) and two equal-length clock readings. -/
theorem C4_witness :
    ("12:00:00" : String).length = ("23:59:59" : String).length ∧
      ((modelC4.viewHeader "12:00:00").length =
          (modelC4.viewHeader "23:59:59").length ∧
        (modelC4.width = 0 → modelC4.View "12:00:00" = modelC4.View "23:59:59") ∧
        (modelC4.width ≠ 0 →
          (modelC4.View "12:00:00").data.take
              (modelC4.viewHeader "12:00:00").data.length =
            (modelC4.viewHeader "12:00:00").data ∧
          (modelC4.View "23:59:59").data.take
              (modelC4.viewHeader "23:59:59").data.length =
            (modelC4.viewHeader "23:59:59").data ∧
          (modelC4.View "12:00:00").data.drop
              (modelC4.viewHeader "12:00:00").data.length =
            (modelC4.View "23:59:59").data.drop
              (modelC4.viewHeader "23:59:59").data.length)) :=
  ⟨rfl, C4_clock_only_in_header modelC4 "12:00:00" "23:59:59" rfl⟩

/-- Witness for `C6_ports_sorted` at a concrete input: ports 443 and 80
come back sorted. -/
theorem C6_witness :
    (NetTui.fetchPorts (fun _ => "")
        (some [⟨"LISTEN", 1, 2, "", 443, "", 0, 0⟩,
               ⟨"LISTEN", 1, 2, "", 80, "", 0, 0⟩])).Pairwise
      (fun a b => a.port ≤ b.port) :=
  C6_ports_sorted (fun _ => "")
    (some [⟨"LISTEN", 1, 2, "", 443, "", 0, 0⟩, ⟨"LISTEN", 1, 2, "", 80, "", 0, 0⟩])
